import Mathlib

/-!
Verification development for the RSS-to-issue-tracker synchronization scripts
(`scripts/rss_sync.py`, `scripts/mantis_rss_sync.py`, `scripts/sync_mentis.py`,
`.github/scripts/sync_rss_to_project.py`).

The development shallowly embeds the reconciliation core: the persisted
`SyncState` dictionary, the MD5 content fingerprint, the per-item decision
logic of `RSSGitHubSync.sync`, and the surrounding fetch / exit-code contract.
Remote gateway calls (issue create, issue update, board attach, status set)
are modelled by an outcome oracle, one outcome per feed position, mirroring
exactly how each script consumes the result of each call.
-/

namespace RssSync

/-! ## MD5 (the digest used by `RSSStateManager.get_item_hash`, which calls
Python's `hashlib.md5(...).hexdigest()`).  Implemented from the MD5
specification: bytes are `Nat`s below 256, words are `Nat`s reduced mod 2^32. -/

/-- Reduce to a 32-bit word. -/
def w32 (n : Nat) : Nat := n % 4294967296

/-- Bitwise complement on 32-bit words. -/
def not32 (x : Nat) : Nat := Nat.xor x 4294967295

/-- Left-rotation of a 32-bit word by `s` places. -/
def rotl32 (x s : Nat) : Nat := w32 (Nat.lor (Nat.shiftLeft x s) (Nat.shiftRight x (32 - s)))

/-- The 64 MD5 sine-derived additive constants. -/
def md5K : List Nat :=
  [0xd76aa478, 0xe8c7b756, 0x242070db, 0xc1bdceee,
   0xf57c0faf, 0x4787c62a, 0xa8304613, 0xfd469501,
   0x698098d8, 0x8b44f7af, 0xffff5bb1, 0x895cd7be,
   0x6b901122, 0xfd987193, 0xa679438e, 0x49b40821,
   0xf61e2562, 0xc040b340, 0x265e5a51, 0xe9b6c7aa,
   0xd62f105d, 0x02441453, 0xd8a1e681, 0xe7d3fbc8,
   0x21e1cde6, 0xc33707d6, 0xf4d50d87, 0x455a14ed,
   0xa9e3e905, 0xfcefa3f8, 0x676f02d9, 0x8d2a4c8a,
   0xfffa3942, 0x8771f681, 0x6d9d6122, 0xfde5380c,
   0xa4beea44, 0x4bdecfa9, 0xf6bb4b60, 0xbebfbc70,
   0x289b7ec6, 0xeaa127fa, 0xd4ef3085, 0x04881d05,
   0xd9d4d039, 0xe6db99e5, 0x1fa27cf8, 0xc4ac5665,
   0xf4292244, 0x432aff97, 0xab9423a7, 0xfc93a039,
   0x655b59c3, 0x8f0ccc92, 0xffeff47d, 0x85845dd1,
   0x6fa87e4f, 0xfe2ce6e0, 0xa3014314, 0x4e0811a1,
   0xf7537e82, 0xbd3af235, 0x2ad7d2bb, 0xeb86d391]

/-- The 64 MD5 per-round left-rotation amounts. -/
def md5S : List Nat :=
  [7, 12, 17, 22, 7, 12, 17, 22, 7, 12, 17, 22, 7, 12, 17, 22,
   5, 9, 14, 20, 5, 9, 14, 20, 5, 9, 14, 20, 5, 9, 14, 20,
   4, 11, 16, 23, 4, 11, 16, 23, 4, 11, 16, 23, 4, 11, 16, 23,
   6, 10, 15, 21, 6, 10, 15, 21, 6, 10, 15, 21, 6, 10, 15, 21]

/-- The MD5 nonlinear mixing function for round `i`. -/
def md5F (i b c d : Nat) : Nat :=
  if i < 16 then Nat.lor (Nat.land b c) (Nat.land (not32 b) d)
  else if i < 32 then Nat.lor (Nat.land d b) (Nat.land (not32 d) c)
  else if i < 48 then Nat.xor (Nat.xor b c) d
  else Nat.xor c (Nat.lor b (not32 d))

/-- The MD5 message-word index for round `i`. -/
def md5G (i : Nat) : Nat :=
  if i < 16 then i
  else if i < 32 then (5 * i + 1) % 16
  else if i < 48 then (3 * i + 5) % 16
  else (7 * i) % 16

/-- Little-endian 32-bit word assembled from four bytes of a block. -/
def wordAt (block : List Nat) (g : Nat) : Nat :=
  block.getD (4 * g) 0 + 256 * block.getD (4 * g + 1) 0 +
  65536 * block.getD (4 * g + 2) 0 + 16777216 * block.getD (4 * g + 3) 0

/-- One MD5 round applied to the four-word running state. -/
def md5Round (block : List Nat) (st : Nat × Nat × Nat × Nat) (i : Nat) :
    Nat × Nat × Nat × Nat :=
  let a := st.1
  let b := st.2.1
  let c := st.2.2.1
  let d := st.2.2.2
  let f := w32 (md5F i b c d + a + md5K.getD i 0 + wordAt block (md5G i))
  (d, w32 (b + rotl32 f (md5S.getD i 0)), b, c)

/-- Process one 64-byte block. -/
def md5Block (st : Nat × Nat × Nat × Nat) (block : List Nat) :
    Nat × Nat × Nat × Nat :=
  let r := (List.range 64).foldl (md5Round block) st
  (w32 (st.1 + r.1), w32 (st.2.1 + r.2.1), w32 (st.2.2.1 + r.2.2.1),
   w32 (st.2.2.2 + r.2.2.2))

/-- The MD5 initial state. -/
def md5Start : Nat × Nat × Nat × Nat :=
  (0x67452301, 0xefcdab89, 0x98badcfe, 0x10325476)

/-- Little-endian byte expansion, `k` bytes. -/
def leBytes : Nat → Nat → List Nat
  | 0, _ => []
  | k + 1, n => n % 256 :: leBytes k (n / 256)

/-- MD5 padding: a `0x80` byte, zeros to 56 mod 64, then the 64-bit
little-endian bit length. -/
def md5Pad (msg : List Nat) : List Nat :=
  msg ++ 0x80 :: List.replicate ((119 - msg.length % 64) % 64) 0 ++
    leBytes 8 (8 * msg.length)

/-- Split a byte list into 64-byte chunks (structural recursion on a fuel
bound so the definition reduces inside the kernel). -/
def chunks64Aux : Nat → List Nat → List (List Nat)
  | 0, _ => []
  | _, [] => []
  | fuel + 1, l => l.take 64 :: chunks64Aux fuel (l.drop 64)

/-- Split a byte list into 64-byte chunks. -/
def chunks64 (l : List Nat) : List (List Nat) := chunks64Aux l.length l

/-- The 16-byte MD5 digest of a byte sequence. -/
def md5Bytes (msg : List Nat) : List Nat :=
  let r := (chunks64 (md5Pad msg)).foldl md5Block md5Start
  leBytes 4 r.1 ++ leBytes 4 r.2.1 ++ leBytes 4 r.2.2.1 ++ leBytes 4 r.2.2.2

/-- Lower-case hex digit. -/
def hexDigit (n : Nat) : Char :=
  if n < 10 then Char.ofNat (48 + n) else Char.ofNat (87 + n)

/-- Lower-case hex rendering of a byte list (as `hexdigest` produces). -/
def bytesToHex (bs : List Nat) : String :=
  String.mk (bs.flatMap fun b => [hexDigit (b / 16 % 16), hexDigit (b % 16)])

/-- UTF-8 encoding of one character (mirrors Python `str.encode('utf-8')`). -/
def utf8Char (c : Char) : List Nat :=
  let n := c.toNat
  if n < 0x80 then [n]
  else if n < 0x800 then
    [Nat.lor 0xc0 (n / 64), Nat.lor 0x80 (n % 64)]
  else if n < 0x10000 then
    [Nat.lor 0xe0 (n / 4096), Nat.lor 0x80 (n / 64 % 64), Nat.lor 0x80 (n % 64)]
  else
    [Nat.lor 0xf0 (n / 262144), Nat.lor 0x80 (n / 4096 % 64),
     Nat.lor 0x80 (n / 64 % 64), Nat.lor 0x80 (n % 64)]

/-- UTF-8 encoding of a string. -/
def utf8Bytes (s : String) : List Nat := s.data.flatMap utf8Char

/-- Python's `hashlib.md5(s.encode('utf-8')).hexdigest()`. -/
def md5HexOfString (s : String) : String := bytesToHex (md5Bytes (utf8Bytes s))

/-! ## Data model

The persisted dictionary and the feed items, as `rss_sync.py` (and its
near-identical copy `mantis_rss_sync.py`) manipulate them. -/

/-- One RSS feed entry as the scripts consume it: every field is read with
`item.get('x', '')` or `item.get('x')`, so an absent field behaves as the
empty string (both `None` and `''` are falsy in the source's tests). -/
structure Item where
  title : String
  link : String
  id : String
  description : String
deriving DecidableEq, Repr

/-- Python `dict.get(key)` on a string-keyed dictionary, modelled as an
insertion-ordered association list. -/
def dictGet {α : Type} (d : List (String × α)) (k : String) : Option α :=
  match d with
  | [] => none
  | (k', v) :: rest => if k' = k then some v else dictGet rest k

/-- Python `d[key] = value`: overwrite in place when the key exists,
otherwise append at the end (insertion order). -/
def dictSet {α : Type} (d : List (String × α)) (k : String) (v : α) :
    List (String × α) :=
  match d with
  | [] => [(k, v)]
  | (k', v') :: rest =>
      if k' = k then (k', v) :: rest else (k', v') :: dictSet rest k v

/-- The persisted state dictionary of `RSSStateManager` (rss_sync.py lines
44-48): `last_sync`, `processed_items` (identity → fingerprint) and
`github_issues` (identity → issue number). -/
structure SyncState where
  last_sync : Option String
  processed_items : List (String × String)
  github_issues : List (String × Nat)
deriving DecidableEq, Repr

/-- The default state `_load_state` falls back to. -/
def emptyState : SyncState := ⟨none, [], []⟩

/-! ## RSSStateManager operations (rss_sync.py lines 59-72) -/

/-- `RSSStateManager.get_item_hash` (rss_sync.py lines 59-62): the MD5 hex
digest of the concatenation `title + link + description`, each field
defaulting to the empty string. -/
def get_item_hash (item : Item) : String :=
  md5HexOfString (item.title ++ item.link ++ item.description)

/-- `RSSStateManager.is_item_changed` (rss_sync.py lines 64-67):
`stored_hash != current_hash`, where a missing entry (`None`) always differs
from the current hash. -/
def is_item_changed (st : SyncState) (item_id current_hash : String) : Bool :=
  decide (dictGet st.processed_items item_id ≠ some current_hash)

/-- `RSSStateManager.update_item_state` (rss_sync.py lines 69-72): write the
fingerprint and the issue number under the same key. -/
def update_item_state (st : SyncState) (item_id item_hash : String)
    (github_issue_number : Nat) : SyncState :=
  ⟨st.last_sync,
   dictSet st.processed_items item_id item_hash,
   dictSet st.github_issues item_id github_issue_number⟩

/-! ## Gateway outcome oracle

Each remote call either succeeds or raises; every script catches these
exceptions at the call site.  One `GWOutcome` per feed position records what
the remote side did for that item's calls. -/

/-- What happened inside `GitHubIssueManager.update_issue` (rss_sync.py
lines 128-139): the remote body differed and the edit was issued and
succeeded; the remote body was identical so no write was issued; or
`get_issue`/`edit` raised (the exception is caught and logged inside
`update_issue`, which returns `None` either way). -/
inductive UpdateOutcome where
  | edited
  | unchangedBody
  | failed
deriving DecidableEq, Repr

/-- Remote outcomes for the calls an item may trigger.  `createResult` is
what `create_issue_from_rss` returns (`none` when the create raised);
`attachOk` is whether the add-to-project mutation succeeded and `statusGate`
whether the status mutation was reached and issued (mantis_rss_sync.py
`_add_issue_to_project` / `_set_issue_status`, where the status field and
option lookups gate the mutation). -/
structure GWOutcome where
  createResult : Option Nat
  updateResult : UpdateOutcome
  attachOk : Bool
  statusGate : Bool
deriving DecidableEq, Repr

/-- The action the loop body took for one feed item. -/
inductive ItemAction where
  | noId
  | skip
  | update (n : Nat) (r : UpdateOutcome)
  | create (res : Option Nat)
deriving DecidableEq, Repr

/-- A remote write operation, as issued against the tracker. -/
inductive GCall where
  | createIssue
  | editIssue (n : Nat)
  | addToProject (n : Nat)
  | setStatus (n : Nat)
deriving DecidableEq, Repr

/-- Write-calls issued by `GitHubIssueManager.update_issue` (rss_sync.py
lines 128-139 = mantis_rss_sync.py lines 442-453): the body edit, issued
only when the generated body differs from the remote body and nothing
raised first. -/
def updateCalls (n : Nat) (r : UpdateOutcome) : List GCall :=
  match r with
  | .edited => [.editIssue n]
  | .unchangedBody => []
  | .failed => []

/-- Write-calls issued by `GitHubIssueManager.create_issue_from_rss`
(mantis_rss_sync.py lines 271-297): the issue create; then, when the create
succeeded and project info was loaded with a project id (`hasProject`), the
add-to-project mutation (`_add_issue_to_project`), and when that mutation
succeeded, the status mutation (`_set_issue_status`, whose own guards are
the `statusGate` oracle bit).  In `rss_sync.py` (lines 108-126) the create
path has no project block: take `hasProject = false`. -/
def createCalls (hasProject : Bool) (out : GWOutcome) (res : Option Nat) :
    List GCall :=
  GCall.createIssue ::
    match res with
    | some n =>
        if hasProject then
          GCall.addToProject n ::
            (if out.attachOk && out.statusGate then [GCall.setStatus n] else [])
        else []
    | none => []

/-! ## The reconciliation loop (rss_sync.py lines 195-249, identical in
mantis_rss_sync.py lines 509-563) -/

/-- The identity of a feed item: `item.get('link') or item.get('id', '')`
(rss_sync.py line 211) — the link when non-empty, else the feed id. -/
def itemId (item : Item) : String := if item.link ≠ "" then item.link else item.id

/-- Python truthiness of `state['github_issues'].get(item_id)`: `None` and
`0` are both falsy (`if existing_issue:` at rss_sync.py line 225). -/
def truthyGet (d : List (String × Nat)) (k : String) : Option Nat :=
  match dictGet d k with
  | some n => if n = 0 then none else some n
  | none => none

/-- One iteration of the `for item in rss_items` loop (rss_sync.py lines
209-243): derive the identity (skip the item when there is none), skip when
the fingerprint is unchanged, update when a truthy issue number is stored
for the identity, otherwise create; write `update_item_state` whenever a
truthy issue number is at hand (stored one, or freshly created one).  All
remote failures are swallowed at the call site (so the outer
`try/except/continue` never fires on gateway errors). -/
def syncStep (hasProject : Bool) (out : GWOutcome) (st : SyncState)
    (item : Item) : SyncState × ItemAction × List GCall :=
  let item_id := itemId item
  if item_id = "" then (st, .noId, [])
  else
    let current_hash := get_item_hash item
    if is_item_changed st item_id current_hash then
      match truthyGet st.github_issues item_id with
      | some n =>
          (update_item_state st item_id current_hash n,
           .update n out.updateResult, updateCalls n out.updateResult)
      | none =>
          match out.createResult with
          | some m =>
              if m ≠ 0 then
                (update_item_state st item_id current_hash m,
                 .create (some m), createCalls hasProject out (some m))
              else (st, .create (some m), createCalls hasProject out (some m))
          | none => (st, .create none, createCalls hasProject out none)
    else (st, .skip, [])

/-- The whole `for item in rss_items` loop, consuming one oracle outcome per
feed position and collecting the per-item actions in feed order. -/
def syncLoop (hasProject : Bool) (o : Nat → GWOutcome) :
    List Item → SyncState → SyncState × List ItemAction
  | [], st => (st, [])
  | item :: rest, st =>
      let s := syncStep hasProject (o 0) st item
      let r := syncLoop hasProject (fun i => o (i + 1)) rest s.1
      (r.1, s.2.1 :: r.2)

/-- `updated_count` (incremented on every update-path item). -/
def countUpdated (tr : List ItemAction) : Nat :=
  (tr.filter fun a => match a with | .update _ _ => true | _ => false).length

/-- `created_count` (incremented when the create returned a truthy number). -/
def countCreated (tr : List ItemAction) : Nat :=
  (tr.filter fun a => match a with
    | .create (some m) => m != 0
    | _ => false).length

/-- Items skipped because their fingerprint was unchanged. -/
def countSkipped (tr : List ItemAction) : Nat :=
  (tr.filter fun a => match a with | .skip => true | _ => false).length

/-- Result of `RSSGitHubSync.fetch_rss_feed`'s collaborator: the feed either
parses to an entry list or the fetch raises. -/
inductive FetchResult where
  | ok (items : List Item)
  | err
deriving DecidableEq, Repr

/-- `RSSGitHubSync.fetch_rss_feed` (rss_sync.py lines 180-193): any raised
exception is caught and an empty entry list returned. -/
def fetch_rss_feed : FetchResult → List Item
  | .ok items => items
  | .err => []

/-- `RSSGitHubSync.sync` (rss_sync.py lines 195-249): fetch; on an empty
entry list return early (state untouched, `save_state` never called);
otherwise run the loop, set `last_sync` to the current time and save.  The
Bool records whether `save_state` was called. -/
def syncRun (hasProject : Bool) (o : Nat → GWOutcome) (fetch : FetchResult)
    (st : SyncState) (now : String) : SyncState × List ItemAction × Bool :=
  let rss_items := fetch_rss_feed fetch
  if rss_items.isEmpty then (st, [], false)
  else
    let r := syncLoop hasProject o rss_items st
    (⟨some now, r.1.processed_items, r.1.github_issues⟩, r.2, true)

/-- Python truthiness of `os.getenv(var)`: unset or empty is missing. -/
def envTruthy : Option String → Bool
  | some s => s != ""
  | none => false

/-- The three required environment variables of `main` (rss_sync.py line
254). -/
structure Env where
  rssFeedUrl : Option String
  githubToken : Option String
  targetRepo : Option String
deriving DecidableEq, Repr

/-- `main` (rss_sync.py lines 251-274): with any required variable missing,
log and return 1 before any sync work; otherwise run the sync — whose
internal handlers swallow every fetch and per-item error, so the
`except` branch returning 1 is unreachable on gateway failures — and return
0.  The result is the exit code, the state as persisted, and the per-item
actions. -/
def mainRun (env : Env) (hasProject : Bool) (o : Nat → GWOutcome)
    (fetch : FetchResult) (st : SyncState) (now : String) :
    Nat × SyncState × List ItemAction :=
  if envTruthy env.rssFeedUrl && envTruthy env.githubToken &&
      envTruthy env.targetRepo then
    let r := syncRun hasProject o fetch st now
    (0, r.1, r.2.1)
  else (1, st, [])

/-! ## Persisted-state serialization (rss_sync.py lines 35-57)

`save_state` serializes the state dictionary with `json.dump` and
`_load_state` reads it back with `json.load`; the JSON documents involved
are modelled by an explicit JSON value type. -/

/-- A JSON document, as far as the state file needs. -/
inductive Json where
  | null
  | str (s : String)
  | num (n : Nat)
  | obj (fields : List (String × Json))

/-- JSON image of the `processed_items` dictionary. -/
def encodeStrMap (m : List (String × String)) : Json :=
  .obj (m.map fun p => (p.1, .str p.2))

/-- JSON image of the `github_issues` dictionary. -/
def encodeNatMap (m : List (String × Nat)) : Json :=
  .obj (m.map fun p => (p.1, .num p.2))

/-- The JSON document `save_state` writes (rss_sync.py lines 50-57): the
state dictionary with its three keys in construction order. -/
def encodeState (st : SyncState) : Json :=
  .obj [("last_sync", match st.last_sync with | none => .null | some s => .str s),
        ("processed_items", encodeStrMap st.processed_items),
        ("github_issues", encodeNatMap st.github_issues)]

/-- Inverse of `encodeStrMap`. -/
def decodeStrMap : Json → Option (List (String × String))
  | .obj fields =>
      fields.foldr (fun p acc =>
        match p.2, acc with
        | .str v, some rest => some ((p.1, v) :: rest)
        | _, _ => none) (some [])
  | _ => none

/-- Inverse of `encodeNatMap`. -/
def decodeNatMap : Json → Option (List (String × Nat))
  | .obj fields =>
      fields.foldr (fun p acc =>
        match p.2, acc with
        | .num v, some rest => some ((p.1, v) :: rest)
        | _, _ => none) (some [])
  | _ => none

/-- Reading a state dictionary back off its JSON document. -/
def decodeState : Json → Option SyncState
  | .obj [("last_sync", ls), ("processed_items", pj), ("github_issues", gj)] =>
      (match ls with
        | .null => some none
        | .str s => some (some s)
        | _ => none).bind fun l =>
      (decodeStrMap pj).bind fun p =>
      (decodeNatMap gj).bind fun g =>
      some ⟨l, p, g⟩
  | _ => none

/-- The conditions `_load_state` distinguishes when reading the state file.
Its `except` clause (rss_sync.py line 41) names exactly
`json.JSONDecodeError` (the file's text is not valid JSON) and `IOError`
(the open or read fails).  A file whose bytes are not valid UTF-8 makes the
decoding inside `json.load` raise `UnicodeDecodeError` — a `ValueError`
that is neither of the two caught classes — which the method does not
catch. -/
inductive StateFile where
  | absent
  | jsonError
  | ioError
  | encodingError
  | parsed (j : Json)

/-- `RSSStateManager._load_state` (rss_sync.py lines 35-48): an absent file
and the two caught failure classes (`json.JSONDecodeError`, `IOError`) fall
back to the default empty state dictionary; a parsed document is returned
as-is; a `UnicodeDecodeError` from a non-UTF-8 file is not caught and
propagates out of `_load_state` and `RSSStateManager.__init__` — which is
invoked outside `main`'s try block — so the process dies with a traceback
(`Except.error`). -/
def load_state : StateFile → Except Unit Json
  | .absent => .ok (encodeState emptyState)
  | .jsonError => .ok (encodeState emptyState)
  | .ioError => .ok (encodeState emptyState)
  | .encodingError => .error ()
  | .parsed j => .ok j

/-! ## Multi-run iteration (for the reachable-state invariant) -/

/-- Fold a sequence of sync runs (each with its own oracle, fetch result and
timestamp) over a starting state, keeping the state `sync` persists. -/
def runsFold (hasProject : Bool) :
    List ((Nat → GWOutcome) × FetchResult × String) → SyncState → SyncState
  | [], st => st
  | (o, f, now) :: rest, st =>
      runsFold hasProject rest (syncRun hasProject o f st now).1

/-! ## Auxiliary notions used by the statements -/

/-- Oracle obtained by removing position `n` (what the remaining calls see
when the item at position `n` is taken out of the feed). -/
def deleteO (o : Nat → GWOutcome) (n : Nat) : Nat → GWOutcome :=
  fun i => if i < n then o i else o (i + 1)

/-- Every remote call for one item succeeds: the create returns a real
(truthy) issue number and the update does not raise. -/
def gwOk (out : GWOutcome) : Prop :=
  (∃ m, out.createResult = some m ∧ m ≠ 0) ∧ out.updateResult ≠ .failed

/-- No two items of the feed carry the same identity with different
fingerprints. -/
def hashConsistent (items : List Item) : Prop :=
  ∀ x ∈ items, ∀ y ∈ items, itemId x = itemId y → get_item_hash x = get_item_hash y

/-- The check `main` performs on its required environment variables. -/
def envOk (env : Env) : Bool :=
  envTruthy env.rssFeedUrl && envTruthy env.githubToken && envTruthy env.targetRepo

/-- A fully successful outcome, for concrete runs. -/
def okOutcome : GWOutcome := ⟨some 7, .edited, true, true⟩

/-- An outcome whose issue create raises, for concrete runs. -/
def createFailOutcome : GWOutcome := ⟨none, .edited, true, true⟩

/-- An outcome whose issue update raises (caught inside `update_issue`),
for concrete runs. -/
def updateFailOutcome : GWOutcome := ⟨some 7, .failed, true, true⟩

/-! ## Dictionary lemmas -/

theorem dictGet_dictSet_self {α : Type} (d : List (String × α)) (k : String)
    (v : α) : dictGet (dictSet d k v) k = some v := by
  induction d with
  | nil => simp [dictGet, dictSet]
  | cons p rest ih =>
      obtain ⟨k1, v1⟩ := p
      by_cases h : k1 = k
      · simp [dictGet, dictSet, h]
      · simp [dictGet, dictSet, h, ih]

theorem dictGet_dictSet_ne {α : Type} (d : List (String × α)) (k k9 : String)
    (v : α) (h : k9 ≠ k) : dictGet (dictSet d k v) k9 = dictGet d k9 := by
  have hke : ¬ k = k9 := fun e => h (Eq.symm e)
  induction d with
  | nil => simp only [dictSet, dictGet, if_neg hke]
  | cons p rest ih =>
      obtain ⟨k1, v1⟩ := p
      by_cases h1 : k1 = k
      · subst h1
        simp only [dictSet, if_pos rfl, dictGet, if_neg hke]
      · simp only [dictSet, if_neg h1, dictGet]
        by_cases h2 : k1 = k9
        · simp only [if_pos h2]
        · simp only [if_neg h2, ih]

theorem dictSet_of_get_eq {α : Type} (d : List (String × α)) (k : String)
    (v : α) (h : dictGet d k = some v) : dictSet d k v = d := by
  induction d with
  | nil => simp [dictGet] at h
  | cons p rest ih =>
      obtain ⟨k1, v1⟩ := p
      by_cases h1 : k1 = k
      · subst h1
        simp [dictGet] at h
        simp [dictSet, h]
      · simp [dictGet, h1] at h
        simp [dictSet, h1, ih h]

theorem truthyGet_some {d : List (String × Nat)} {k : String} {n : Nat}
    (h : truthyGet d k = some n) : dictGet d k = some n ∧ n ≠ 0 := by
  unfold truthyGet at h
  split at h
  · next m hm2 =>
      by_cases hm : m = 0
      · rw [if_pos hm] at h; exact Option.noConfusion h
      · rw [if_neg hm] at h
        injection h with h2
        subst h2
        exact ⟨hm2, hm⟩
  · next hm2 => exact Option.noConfusion h

/-! ## Shape lemmas for one loop iteration -/

theorem syncStep_cases (hp : Bool) (out : GWOutcome) (st : SyncState)
    (it : Item) :
    (syncStep hp out st it).1 = st ∨
    ∃ n, n ≠ 0 ∧ (syncStep hp out st it).1 =
      update_item_state st (itemId it) (get_item_hash it) n := by
  unfold syncStep
  dsimp only
  split
  · exact Or.inl rfl
  · split
    · split
      · next n hn =>
          exact Or.inr ⟨n, (truthyGet_some hn).2, rfl⟩
      · split
        · next m hm =>
            split
            · next h0 => exact Or.inr ⟨m, h0, rfl⟩
            · exact Or.inl rfl
        · exact Or.inl rfl
    · exact Or.inl rfl

theorem syncStep_noId (hp : Bool) (out : GWOutcome) (st : SyncState)
    (b : Item) (h : itemId b = "") : syncStep hp out st b = (st, .noId, []) := by
  unfold syncStep
  simp [h]

theorem syncStep_skip_eval (hp : Bool) (out : GWOutcome) (st : SyncState)
    (b : Item) (hid : itemId b ≠ "")
    (hch : dictGet st.processed_items (itemId b) = some (get_item_hash b)) :
    syncStep hp out st b = (st, .skip, []) := by
  unfold syncStep
  simp [hid, is_item_changed, hch]

theorem syncStep_update_eval (hp : Bool) (out : GWOutcome) (st : SyncState)
    (b : Item) (n : Nat) (hid : itemId b ≠ "")
    (hch : dictGet st.processed_items (itemId b) ≠ some (get_item_hash b))
    (hgi : truthyGet st.github_issues (itemId b) = some n) :
    syncStep hp out st b =
      (update_item_state st (itemId b) (get_item_hash b) n,
       .update n out.updateResult, updateCalls n out.updateResult) := by
  unfold syncStep
  simp [hid, is_item_changed, hch, hgi]

theorem syncStep_create_eval (hp : Bool) (out : GWOutcome) (st : SyncState)
    (b : Item) (m : Nat) (hid : itemId b ≠ "")
    (hch : dictGet st.processed_items (itemId b) ≠ some (get_item_hash b))
    (hgi : truthyGet st.github_issues (itemId b) = none)
    (hcr : out.createResult = some m) (hm : m ≠ 0) :
    syncStep hp out st b =
      (update_item_state st (itemId b) (get_item_hash b) m,
       .create (some m), createCalls hp out (some m)) := by
  unfold syncStep
  simp [hid, is_item_changed, hch, hgi, hcr, hm]

theorem syncStep_createFail_eval (hp : Bool) (out : GWOutcome) (st : SyncState)
    (b : Item) (hid : itemId b ≠ "")
    (hch : dictGet st.processed_items (itemId b) ≠ some (get_item_hash b))
    (hgi : truthyGet st.github_issues (itemId b) = none)
    (hcr : out.createResult = none) :
    syncStep hp out st b = (st, .create none, createCalls hp out none) := by
  unfold syncStep
  simp [hid, is_item_changed, hch, hgi, hcr]

theorem syncStep_frame (hp : Bool) (out : GWOutcome) (st : SyncState)
    (it : Item) (k : String) (hk : k ≠ itemId it) :
    dictGet (syncStep hp out st it).1.processed_items k
        = dictGet st.processed_items k ∧
    dictGet (syncStep hp out st it).1.github_issues k
        = dictGet st.github_issues k := by
  rcases syncStep_cases hp out st it with h | ⟨n, _, h⟩
  · rw [h]; exact ⟨rfl, rfl⟩
  · rw [h]
    unfold update_item_state
    exact ⟨dictGet_dictSet_ne _ _ _ _ hk, dictGet_dictSet_ne _ _ _ _ hk⟩

/-! ## Loop lemmas -/

theorem syncLoop_trace_length (hp : Bool) (o : Nat → GWOutcome)
    (items : List Item) (st : SyncState) :
    (syncLoop hp o items st).2.length = items.length := by
  induction items generalizing o st with
  | nil => rfl
  | cons x rest ih => simp [syncLoop, ih]

theorem syncLoop_congr (hp : Bool) (o1 o2 : Nat → GWOutcome)
    (items : List Item) (st : SyncState)
    (h : ∀ i, i < items.length → o1 i = o2 i) :
    syncLoop hp o1 items st = syncLoop hp o2 items st := by
  induction items generalizing o1 o2 st with
  | nil => rfl
  | cons x rest ih =>
      have h0 : o1 0 = o2 0 := h 0 (by simp)
      have hr : ∀ i, i < rest.length → o1 (i + 1) = o2 (i + 1) :=
        fun i hi => h (i + 1) (by simpa using Nat.succ_lt_succ hi)
      calc syncLoop hp o1 (x :: rest) st
          = ((syncLoop hp (fun i => o1 (i + 1)) rest (syncStep hp (o1 0) st x).1).1,
             (syncStep hp (o1 0) st x).2.1 ::
               (syncLoop hp (fun i => o1 (i + 1)) rest (syncStep hp (o1 0) st x).1).2) := rfl
        _ = ((syncLoop hp (fun i => o2 (i + 1)) rest (syncStep hp (o2 0) st x).1).1,
             (syncStep hp (o2 0) st x).2.1 ::
               (syncLoop hp (fun i => o2 (i + 1)) rest (syncStep hp (o2 0) st x).1).2) := by
              rw [h0, ih (fun i => o1 (i + 1)) (fun i => o2 (i + 1))
                    (syncStep hp (o2 0) st x).1 hr]
        _ = syncLoop hp o2 (x :: rest) st := rfl

theorem syncLoop_append (hp : Bool) (o : Nat → GWOutcome) (xs ys : List Item)
    (st : SyncState) :
    syncLoop hp o (xs ++ ys) st =
      ((syncLoop hp (fun i => o (i + xs.length)) ys (syncLoop hp o xs st).1).1,
       (syncLoop hp o xs st).2 ++
         (syncLoop hp (fun i => o (i + xs.length)) ys (syncLoop hp o xs st).1).2) := by
  induction xs generalizing o st with
  | nil => rfl
  | cons x rest ih =>
      calc syncLoop hp o (x :: (rest ++ ys)) st
          = ((syncLoop hp (fun i => o (i + 1)) (rest ++ ys) (syncStep hp (o 0) st x).1).1,
             (syncStep hp (o 0) st x).2.1 ::
               (syncLoop hp (fun i => o (i + 1)) (rest ++ ys) (syncStep hp (o 0) st x).1).2) := rfl
        _ = _ := by
              rw [ih (fun i => o (i + 1)) (syncStep hp (o 0) st x).1]
              exact rfl

theorem syncLoop_frame (hp : Bool) (o : Nat → GWOutcome) (items : List Item)
    (st : SyncState) (k : String) (h : ∀ x ∈ items, itemId x ≠ k) :
    dictGet (syncLoop hp o items st).1.processed_items k
        = dictGet st.processed_items k ∧
    dictGet (syncLoop hp o items st).1.github_issues k
        = dictGet st.github_issues k := by
  induction items generalizing o st with
  | nil => exact ⟨rfl, rfl⟩
  | cons x rest ih =>
      have hx : k ≠ itemId x := fun e => h x (by simp) (Eq.symm e)
      have hs := syncStep_frame hp (o 0) st x k hx
      have hr := ih (fun i => o (i + 1)) (syncStep hp (o 0) st x).1
        (fun y hy => h y (by simp [hy]))
      exact ⟨hr.1.trans hs.1, hr.2.trans hs.2⟩

theorem deleteO_lt (o : Nat → GWOutcome) (n i : Nat) (h : i < n) :
    deleteO o n i = o i := by simp [deleteO, h]

theorem deleteO_ge (o : Nat → GWOutcome) (n i : Nat) (h : ¬ i < n) :
    deleteO o n i = o (i + 1) := by simp [deleteO, h]

theorem syncLoop_insert (hp : Bool) (o : Nat → GWOutcome) (st : SyncState)
    (xs ys : List Item) (b : Item)
    (hb : (syncStep hp (o xs.length) (syncLoop hp o xs st).1 b).1
            = (syncLoop hp o xs st).1) :
    (syncLoop hp o (xs ++ b :: ys) st).1
        = (syncLoop hp (deleteO o xs.length) (xs ++ ys) st).1 ∧
    (syncLoop hp o (xs ++ b :: ys) st).2
        = (syncLoop hp o xs st).2 ++
            (syncStep hp (o xs.length) (syncLoop hp o xs st).1 b).2.1 ::
            (syncLoop hp (fun i => o (i + (xs.length + 1))) ys
              (syncLoop hp o xs st).1).2 ∧
    (syncLoop hp (deleteO o xs.length) (xs ++ ys) st).2
        = (syncLoop hp o xs st).2 ++
            (syncLoop hp (fun i => o (i + (xs.length + 1))) ys
              (syncLoop hp o xs st).1).2 := by
  have h00 : o (0 + xs.length) = o xs.length := congrArg o (Nat.zero_add xs.length)
  have hys : (fun i => o (i + 1 + xs.length)) = (fun i => o (i + (xs.length + 1))) := by
    funext i
    exact congrArg o (by omega)
  have hxsEq : syncLoop hp (deleteO o xs.length) xs st = syncLoop hp o xs st :=
    syncLoop_congr hp _ _ xs st (fun i hi => deleteO_lt o xs.length i hi)
  have hysO : (fun i => deleteO o xs.length (i + xs.length)) =
      (fun i => o (i + (xs.length + 1))) := by
    funext i
    rw [deleteO_ge o xs.length (i + xs.length) (by omega)]
    exact rfl
  have hconsW : syncLoop hp (fun i => o (i + xs.length)) (b :: ys)
        (syncLoop hp o xs st).1
      = ((syncLoop hp (fun i => o (i + 1 + xs.length)) ys
            (syncStep hp (o (0 + xs.length)) (syncLoop hp o xs st).1 b).1).1,
         (syncStep hp (o (0 + xs.length)) (syncLoop hp o xs st).1 b).2.1 ::
           (syncLoop hp (fun i => o (i + 1 + xs.length)) ys
             (syncStep hp (o (0 + xs.length)) (syncLoop hp o xs st).1 b).1).2) := rfl
  rw [h00, hb, hys] at hconsW
  refine ⟨?_, ?_, ?_⟩
  · rw [syncLoop_append hp o xs (b :: ys) st]
    dsimp only
    rw [hconsW]
    dsimp only
    rw [syncLoop_append hp (deleteO o xs.length) xs ys st]
    dsimp only
    rw [hxsEq, hysO]
  · rw [syncLoop_append hp o xs (b :: ys) st]
    dsimp only
    rw [hconsW]
  · rw [syncLoop_append hp (deleteO o xs.length) xs ys st]
    dsimp only
    rw [hxsEq, hysO]

theorem syncLoop_preserves_hash (hp : Bool) (o : Nat → GWOutcome)
    (items : List Item) (st : SyncState) (k hv : String)
    (hst : dictGet st.processed_items k = some hv)
    (hcons : ∀ y ∈ items, itemId y = k → get_item_hash y = hv) :
    dictGet (syncLoop hp o items st).1.processed_items k = some hv := by
  induction items generalizing o st with
  | nil => exact hst
  | cons x rest ih =>
      have hstep : dictGet (syncStep hp (o 0) st x).1.processed_items k = some hv := by
        rcases syncStep_cases hp (o 0) st x with he | ⟨n, hn0, he⟩
        · rw [he]; exact hst
        · rw [he]
          unfold update_item_state
          by_cases hk : k = itemId x
          · dsimp only
            rw [hk, dictGet_dictSet_self, hcons x (by simp) (Eq.symm hk)]
          · dsimp only
            rw [dictGet_dictSet_ne _ _ _ _ hk]
            exact hst
      exact ih (fun i => o (i + 1)) (syncStep hp (o 0) st x).1 hstep
        (fun y hy hk => hcons y (by simp [hy]) hk)

theorem syncLoop_allSkip (hp : Bool) (o : Nat → GWOutcome) (items : List Item)
    (st : SyncState)
    (h : ∀ x ∈ items, itemId x ≠ "" →
      dictGet st.processed_items (itemId x) = some (get_item_hash x)) :
    (syncLoop hp o items st).1 = st ∧
    ∀ a ∈ (syncLoop hp o items st).2,
      a = ItemAction.skip ∨ a = ItemAction.noId := by
  induction items generalizing o st with
  | nil => exact ⟨rfl, by intro a ha; cases ha⟩
  | cons x rest ih =>
      have hstep : syncStep hp (o 0) st x = (st, ItemAction.skip, []) ∨
          syncStep hp (o 0) st x = (st, ItemAction.noId, []) := by
        by_cases hid : itemId x = ""
        · exact Or.inr (syncStep_noId hp (o 0) st x hid)
        · exact Or.inl (syncStep_skip_eval hp (o 0) st x hid (h x (by simp) hid))
      have hst1 : (syncStep hp (o 0) st x).1 = st := by
        rcases hstep with he | he <;> rw [he]
      have hact : (syncStep hp (o 0) st x).2.1 = ItemAction.skip ∨
          (syncStep hp (o 0) st x).2.1 = ItemAction.noId := by
        rcases hstep with he | he
        · exact Or.inl (by rw [he])
        · exact Or.inr (by rw [he])
      have hr := ih (fun i => o (i + 1)) (syncStep hp (o 0) st x).1
        (fun y hy hyid => by rw [hst1]; exact h y (by simp [hy]) hyid)
      constructor
      · calc (syncLoop hp o (x :: rest) st).1
            = (syncLoop hp (fun i => o (i + 1)) rest (syncStep hp (o 0) st x).1).1 := rfl
          _ = (syncStep hp (o 0) st x).1 := hr.1
          _ = st := hst1
      · intro a ha
        have htr : (syncLoop hp o (x :: rest) st).2
            = (syncStep hp (o 0) st x).2.1 ::
              (syncLoop hp (fun i => o (i + 1)) rest (syncStep hp (o 0) st x).1).2 := rfl
        rw [htr] at ha
        rcases List.mem_cons.mp ha with rfl | hmem
        · exact hact
        · exact hr.2 a hmem

theorem counts_of_skips (tr : List ItemAction)
    (h : ∀ a ∈ tr, a = ItemAction.skip ∨ a = ItemAction.noId) :
    countCreated tr = 0 ∧ countUpdated tr = 0 := by
  constructor
  · unfold countCreated
    rw [List.length_eq_zero]
    apply List.filter_eq_nil_iff.mpr
    intro a ha
    rcases h a ha with rfl | rfl <;> simp
  · unfold countUpdated
    rw [List.length_eq_zero]
    apply List.filter_eq_nil_iff.mpr
    intro a ha
    rcases h a ha with rfl | rfl <;> simp

theorem syncLoop_postHash (hp : Bool) (o : Nat → GWOutcome) (items : List Item)
    (st : SyncState) (hok : ∀ i, gwOk (o i)) (hcons : hashConsistent items) :
    ∀ x ∈ items, itemId x ≠ "" →
      dictGet (syncLoop hp o items st).1.processed_items (itemId x)
        = some (get_item_hash x) := by
  induction items generalizing o st with
  | nil => intro x hx; cases hx
  | cons y rest ih =>
      intro x hx hid
      rcases List.mem_cons.mp hx with rfl | hxr
      · have hstep : dictGet (syncStep hp (o 0) st x).1.processed_items (itemId x)
            = some (get_item_hash x) := by
          by_cases hch : dictGet st.processed_items (itemId x) = some (get_item_hash x)
          · rw [syncStep_skip_eval hp (o 0) st x hid hch]
            exact hch
          · cases hgi : truthyGet st.github_issues (itemId x) with
            | some n =>
                rw [syncStep_update_eval hp (o 0) st x n hid hch hgi]
                unfold update_item_state
                exact dictGet_dictSet_self _ _ _
            | none =>
                obtain ⟨⟨m, hm, hm0⟩, _⟩ := hok 0
                rw [syncStep_create_eval hp (o 0) st x m hid hch hgi hm hm0]
                unfold update_item_state
                exact dictGet_dictSet_self _ _ _
        exact syncLoop_preserves_hash hp (fun i => o (i + 1)) rest
          (syncStep hp (o 0) st x).1 (itemId x) (get_item_hash x) hstep
          (fun z hz hzid => hcons z (by simp [hz]) x (by simp) hzid)
      · exact ih (fun i => o (i + 1)) (syncStep hp (o 0) st y).1
          (fun i => hok (i + 1))
          (fun a ha c hc he => hcons a (by simp [ha]) c (by simp [hc]) he)
          x hxr hid

/-! ## Key-set lemmas -/

theorem syncStep_sameKeys (hp : Bool) (out : GWOutcome) (st : SyncState)
    (it : Item)
    (h : ∀ k, (dictGet st.processed_items k).isSome
            = (dictGet st.github_issues k).isSome) :
    ∀ k, (dictGet (syncStep hp out st it).1.processed_items k).isSome
        = (dictGet (syncStep hp out st it).1.github_issues k).isSome := by
  rcases syncStep_cases hp out st it with he | ⟨n, _, he⟩
  · rw [he]; exact h
  · rw [he]
    intro k
    unfold update_item_state
    by_cases hk : k = itemId it
    · dsimp only
      rw [hk, dictGet_dictSet_self, dictGet_dictSet_self]
      rfl
    · dsimp only
      rw [dictGet_dictSet_ne _ _ _ _ hk, dictGet_dictSet_ne _ _ _ _ hk]
      exact h k

theorem syncLoop_sameKeys (hp : Bool) (o : Nat → GWOutcome) (items : List Item)
    (st : SyncState)
    (h : ∀ k, (dictGet st.processed_items k).isSome
            = (dictGet st.github_issues k).isSome) :
    ∀ k, (dictGet (syncLoop hp o items st).1.processed_items k).isSome
        = (dictGet (syncLoop hp o items st).1.github_issues k).isSome := by
  induction items generalizing o st with
  | nil => exact h
  | cons x rest ih =>
      exact ih (fun i => o (i + 1)) (syncStep hp (o 0) st x).1
        (syncStep_sameKeys hp (o 0) st x h)

theorem syncRun_sameKeys (hp : Bool) (o : Nat → GWOutcome) (f : FetchResult)
    (st : SyncState) (now : String)
    (h : ∀ k, (dictGet st.processed_items k).isSome
            = (dictGet st.github_issues k).isSome) :
    ∀ k, (dictGet (syncRun hp o f st now).1.processed_items k).isSome
        = (dictGet (syncRun hp o f st now).1.github_issues k).isSome := by
  intro k
  unfold syncRun
  dsimp only
  split
  · exact h k
  · exact syncLoop_sameKeys hp o (fetch_rss_feed f) st h k

theorem syncStep_createZero_eval (hp : Bool) (out : GWOutcome) (st : SyncState)
    (b : Item) (hid : itemId b ≠ "")
    (hch : dictGet st.processed_items (itemId b) ≠ some (get_item_hash b))
    (hgi : truthyGet st.github_issues (itemId b) = none)
    (hcr : out.createResult = some 0) :
    syncStep hp out st b = (st, .create (some 0), createCalls hp out (some 0)) := by
  unfold syncStep
  simp [hid, is_item_changed, hch, hgi, hcr]

/-! ## Serialization roundtrip lemmas -/

theorem decodeStrMap_encodeStrMap (m : List (String × String)) :
    decodeStrMap (encodeStrMap m) = some m := by
  induction m with
  | nil => rfl
  | cons p rest ih =>
      obtain ⟨k, v⟩ := p
      simp only [encodeStrMap, decodeStrMap, List.map_cons, List.foldr_cons] at ih ⊢
      rw [ih]

theorem decodeNatMap_encodeNatMap (m : List (String × Nat)) :
    decodeNatMap (encodeNatMap m) = some m := by
  induction m with
  | nil => rfl
  | cons p rest ih =>
      obtain ⟨k, v⟩ := p
      simp only [encodeNatMap, decodeNatMap, List.map_cons, List.foldr_cons] at ih ⊢
      rw [ih]

theorem decodeState_encodeState (s : SyncState) :
    decodeState (encodeState s) = some s := by
  obtain ⟨ls, pm, gm⟩ := s
  cases ls with
  | none =>
      simp [encodeState, decodeState, decodeStrMap_encodeStrMap,
        decodeNatMap_encodeNatMap]
  | some v =>
      simp [encodeState, decodeState, decodeStrMap_encodeStrMap,
        decodeNatMap_encodeNatMap]

/-- Key-set equality is preserved by any sequence of sync runs. -/
theorem runsFold_sameKeys (hp : Bool)
    (runs : List ((Nat → GWOutcome) × FetchResult × String)) (st : SyncState)
    (h : ∀ k, (dictGet st.processed_items k).isSome
            = (dictGet st.github_issues k).isSome) :
    ∀ k, (dictGet (runsFold hp runs st).processed_items k).isSome
        = (dictGet (runsFold hp runs st).github_issues k).isSome := by
  induction runs generalizing st with
  | nil => exact h
  | cons r rest ih =>
      obtain ⟨o, f, now⟩ := r
      exact ih (syncRun hp o f st now).1 (syncRun_sameKeys hp o f st now h)

/-! ## Per-key congruence: the records a run leaves under one identity
depend only on what the starting state holds under that identity -/

theorem syncStep_lookup_congr (hp : Bool) (out : GWOutcome)
    (st1 st2 : SyncState) (x : Item) (k : String)
    (hgp : dictGet st1.processed_items k = dictGet st2.processed_items k)
    (hgi : dictGet st1.github_issues k = dictGet st2.github_issues k) :
    dictGet (syncStep hp out st1 x).1.processed_items k
      = dictGet (syncStep hp out st2 x).1.processed_items k ∧
    dictGet (syncStep hp out st1 x).1.github_issues k
      = dictGet (syncStep hp out st2 x).1.github_issues k := by
  by_cases hk : itemId x = k
  · subst hk
    by_cases hid : itemId x = ""
    · rw [syncStep_noId hp out st1 x hid, syncStep_noId hp out st2 x hid]
      exact ⟨hgp, hgi⟩
    · by_cases hch : dictGet st1.processed_items (itemId x) = some (get_item_hash x)
      · have hch2 : dictGet st2.processed_items (itemId x) = some (get_item_hash x) :=
          hgp.symm.trans hch
        rw [syncStep_skip_eval hp out st1 x hid hch,
            syncStep_skip_eval hp out st2 x hid hch2]
        exact ⟨hgp, hgi⟩
      · have hch2 : ¬ dictGet st2.processed_items (itemId x) = some (get_item_hash x) :=
          fun e => hch (hgp.trans e)
        have htEq : truthyGet st1.github_issues (itemId x)
            = truthyGet st2.github_issues (itemId x) := by
          unfold truthyGet
          rw [hgi]
        cases htg : truthyGet st1.github_issues (itemId x) with
        | some n =>
            have htg2 : truthyGet st2.github_issues (itemId x) = some n :=
              htEq.symm.trans htg
            rw [syncStep_update_eval hp out st1 x n hid hch htg,
                syncStep_update_eval hp out st2 x n hid hch2 htg2]
            unfold update_item_state
            dsimp only
            rw [dictGet_dictSet_self, dictGet_dictSet_self,
                dictGet_dictSet_self, dictGet_dictSet_self]
            exact ⟨rfl, rfl⟩
        | none =>
            have htg2 : truthyGet st2.github_issues (itemId x) = none :=
              htEq.symm.trans htg
            cases hcr : out.createResult with
            | none =>
                rw [syncStep_createFail_eval hp out st1 x hid hch htg hcr,
                    syncStep_createFail_eval hp out st2 x hid hch2 htg2 hcr]
                exact ⟨hgp, hgi⟩
            | some m =>
                by_cases hm : m = 0
                · subst hm
                  rw [syncStep_createZero_eval hp out st1 x hid hch htg hcr,
                      syncStep_createZero_eval hp out st2 x hid hch2 htg2 hcr]
                  exact ⟨hgp, hgi⟩
                · rw [syncStep_create_eval hp out st1 x m hid hch htg hcr hm,
                      syncStep_create_eval hp out st2 x m hid hch2 htg2 hcr hm]
                  unfold update_item_state
                  dsimp only
                  rw [dictGet_dictSet_self, dictGet_dictSet_self,
                      dictGet_dictSet_self, dictGet_dictSet_self]
                  exact ⟨rfl, rfl⟩
  · have hk1 : k ≠ itemId x := fun e => hk (Eq.symm e)
    have h1 := syncStep_frame hp out st1 x k hk1
    have h2 := syncStep_frame hp out st2 x k hk1
    exact ⟨h1.1.trans (hgp.trans h2.1.symm), h1.2.trans (hgi.trans h2.2.symm)⟩

theorem syncLoop_lookup_congr (hp : Bool) (o : Nat → GWOutcome)
    (items : List Item) (k : String) (st1 st2 : SyncState)
    (hgp : dictGet st1.processed_items k = dictGet st2.processed_items k)
    (hgi : dictGet st1.github_issues k = dictGet st2.github_issues k) :
    dictGet (syncLoop hp o items st1).1.processed_items k
      = dictGet (syncLoop hp o items st2).1.processed_items k ∧
    dictGet (syncLoop hp o items st1).1.github_issues k
      = dictGet (syncLoop hp o items st2).1.github_issues k := by
  induction items generalizing o st1 st2 with
  | nil => exact ⟨hgp, hgi⟩
  | cons x rest ih =>
      have hs := syncStep_lookup_congr hp (o 0) st1 st2 x k hgp hgi
      exact ih (fun i => o (i + 1)) (syncStep hp (o 0) st1 x).1
        (syncStep hp (o 0) st2 x).1 hs.1 hs.2

/-- Inserting one item into a feed never changes the records the run leaves
under any identity other than the inserted item's own, whatever the
gateway outcomes for that item (success, failed create or failed update). -/
theorem syncLoop_insert_isolated (hp : Bool) (o : Nat → GWOutcome)
    (st : SyncState) (xs ys : List Item) (b : Item) (k : String)
    (hk : k ≠ itemId b) :
    dictGet (syncLoop hp o (xs ++ b :: ys) st).1.processed_items k
      = dictGet (syncLoop hp (deleteO o xs.length) (xs ++ ys) st).1.processed_items k ∧
    dictGet (syncLoop hp o (xs ++ b :: ys) st).1.github_issues k
      = dictGet (syncLoop hp (deleteO o xs.length) (xs ++ ys) st).1.github_issues k := by
  have h00 : o (0 + xs.length) = o xs.length := congrArg o (Nat.zero_add xs.length)
  have hys : (fun i => o (i + 1 + xs.length)) = (fun i => o (i + (xs.length + 1))) := by
    funext i
    exact congrArg o (by omega)
  have hxsEq : syncLoop hp (deleteO o xs.length) xs st = syncLoop hp o xs st :=
    syncLoop_congr hp _ _ xs st (fun i hi => deleteO_lt o xs.length i hi)
  have hysO : (fun i => deleteO o xs.length (i + xs.length)) =
      (fun i => o (i + (xs.length + 1))) := by
    funext i
    rw [deleteO_ge o xs.length (i + xs.length) (by omega)]
    exact rfl
  have hconsW : syncLoop hp (fun i => o (i + xs.length)) (b :: ys)
        (syncLoop hp o xs st).1
      = ((syncLoop hp (fun i => o (i + 1 + xs.length)) ys
            (syncStep hp (o (0 + xs.length)) (syncLoop hp o xs st).1 b).1).1,
         (syncStep hp (o (0 + xs.length)) (syncLoop hp o xs st).1 b).2.1 ::
           (syncLoop hp (fun i => o (i + 1 + xs.length)) ys
             (syncStep hp (o (0 + xs.length)) (syncLoop hp o xs st).1 b).1).2) := rfl
  rw [h00, hys] at hconsW
  have hfr := syncStep_frame hp (o xs.length) (syncLoop hp o xs st).1 b k hk
  have hcong := syncLoop_lookup_congr hp (fun i => o (i + (xs.length + 1))) ys k
    (syncStep hp (o xs.length) (syncLoop hp o xs st).1 b).1
    (syncLoop hp o xs st).1 hfr.1 hfr.2
  constructor
  · rw [syncLoop_append hp o xs (b :: ys) st]
    dsimp only
    rw [hconsW]
    dsimp only
    rw [syncLoop_append hp (deleteO o xs.length) xs ys st]
    dsimp only
    rw [hxsEq, hysO]
    exact hcong.1
  · rw [syncLoop_append hp o xs (b :: ys) st]
    dsimp only
    rw [hconsW]
    dsimp only
    rw [syncLoop_append hp (deleteO o xs.length) xs ys st]
    dsimp only
    rw [hxsEq, hysO]
    exact hcong.2

/-! ## Claims -/

/-- C6 counterexample: a state file whose bytes are not valid UTF-8 has
contents that cannot be parsed, yet loading it does not yield the empty
initial state and is a fatal error: the `UnicodeDecodeError` it raises is
not among the exceptions `_load_state` catches, and the constructor that
calls `_load_state` runs outside `main`'s try block. -/
theorem claim6_counterexample :
    load_state StateFile.encodingError = Except.error () ∧
    load_state StateFile.encodingError ≠ Except.ok (encodeState emptyState) :=
  ⟨rfl, fun h => Except.noConfusion h⟩

/-- C6 (amended): loading the persisted state from an absent path, from a
file whose text fails JSON parsing, or from a file whose open or read
raises an IO error yields the empty initial state dictionary (no records,
no last-sync timestamp) without raising; a state file whose bytes are not
valid UTF-8, however, raises an uncaught fatal error; and for every
well-formed saved state (the JSON document `save_state` writes), loading
returns exactly what was saved: decoding the loaded document gives back the
original state. -/
theorem claim6_state_robustness (s : SyncState) :
    load_state StateFile.absent = Except.ok (encodeState emptyState) ∧
    load_state StateFile.jsonError = Except.ok (encodeState emptyState) ∧
    load_state StateFile.ioError = Except.ok (encodeState emptyState) ∧
    load_state StateFile.encodingError = Except.error () ∧
    load_state (StateFile.parsed (encodeState s)) = Except.ok (encodeState s) ∧
    decodeState (encodeState s) = some s :=
  ⟨rfl, rfl, rfl, rfl, rfl, decodeState_encodeState s⟩

set_option maxRecDepth 400000 in
/-- C7 counterexample: two feed items that agree on title, identity and
body (identity `"a"`, one derived from the link, the other from the feed
id) receive different fingerprints, because `get_item_hash` digests the raw
`link` field — not the derived identity.  So the fingerprint is not a
digest over title + identity + body. -/
theorem claim7_counterexample :
    itemId ⟨"", "a", "", ""⟩ = itemId ⟨"", "", "a", ""⟩ ∧
    Item.title ⟨"", "a", "", ""⟩ = Item.title ⟨"", "", "a", ""⟩ ∧
    Item.description ⟨"", "a", "", ""⟩ = Item.description ⟨"", "", "a", ""⟩ ∧
    get_item_hash ⟨"", "a", "", ""⟩ ≠ get_item_hash ⟨"", "", "a", ""⟩ := by
  refine ⟨rfl, rfl, rfl, ?_⟩
  decide

/-- C7 (amended): the content fingerprint is the MD5 hex digest over exactly
the concatenation title + link + body (the raw `link` field, empty when the
item has none), and is deterministic in those three fields; whenever the
item's identity is derived from its link (a non-empty `link`), this
coincides with a digest over title + identity + body. -/
theorem claim7_fingerprint (i1 i2 : Item) :
    get_item_hash i1 = md5HexOfString (i1.title ++ i1.link ++ i1.description) ∧
    (i1.title = i2.title → i1.link = i2.link → i1.description = i2.description →
      get_item_hash i1 = get_item_hash i2) ∧
    (i1.link ≠ "" →
      get_item_hash i1 = md5HexOfString (i1.title ++ itemId i1 ++ i1.description)) := by
  refine ⟨rfl, ?_, ?_⟩
  · intro h1 h2 h3
    unfold get_item_hash
    rw [h1, h2, h3]
  · intro h
    unfold get_item_hash itemId
    rw [if_pos h]

/-- C7 witness: the amended statement evaluated on a concrete linked item. -/
theorem claim7_witness :
    get_item_hash ⟨"t", "u", "", "d"⟩ =
      md5HexOfString ("t" ++ itemId ⟨"t", "u", "", "d"⟩ ++ "d") :=
  (claim7_fingerprint ⟨"t", "u", "", "d"⟩ ⟨"t", "u", "", "d"⟩).2.2 (by decide)

/-- C10: starting from the empty initial state, after every sequence of sync
runs the set of identities with a stored fingerprint equals the set of
identities with a stored tracker issue number: `update_item_state` writes
both maps under the same key, so neither map ever holds a key the other
lacks. -/
theorem claim10_key_invariant (hp : Bool)
    (runs : List ((Nat → GWOutcome) × FetchResult × String)) (k : String) :
    (dictGet (runsFold hp runs emptyState).processed_items k).isSome
      = (dictGet (runsFold hp runs emptyState).github_issues k).isSome :=
  runsFold_sameKeys hp runs emptyState (fun _ => rfl) k

set_option maxRecDepth 400000 in
/-- C1 counterexample: an identity `"u"` with stored fingerprint `"old"` and
stored issue number 5, a feed item whose content changed, and a remote
update that raises (caught inside `update_issue`): the loop still overwrites
the stored fingerprint, so a failed update does not leave the stored
fingerprint unchanged. -/
theorem claim1_counterexample :
    (syncStep false updateFailOutcome ⟨none, [("u", "old")], [("u", 5)]⟩
        ⟨"T", "u", "", "D"⟩).2.1 = ItemAction.update 5 UpdateOutcome.failed ∧
    dictGet (syncStep false updateFailOutcome ⟨none, [("u", "old")], [("u", 5)]⟩
        ⟨"T", "u", "", "D"⟩).1.processed_items "u" ≠ some "old" := by
  decide

/-- C1 (amended): the stored fingerprint for an identity is changed by the
loop body only on a successful create (truthy issue number) or on an update
attempt; a failed or falsy create, a skip, and a missing identity leave the
state unchanged; but on the update path the fingerprint is overwritten with
the current hash whether or not the remote update succeeded, because
`update_issue` swallows its exceptions. -/
theorem claim1_fingerprint_writes (hp : Bool) (out : GWOutcome)
    (st : SyncState) (it : Item) :
    ((syncStep hp out st it).2.1 = ItemAction.create none →
        (syncStep hp out st it).1 = st) ∧
    ((syncStep hp out st it).2.1 = ItemAction.create (some 0) →
        (syncStep hp out st it).1 = st) ∧
    ((syncStep hp out st it).2.1 = ItemAction.skip →
        (syncStep hp out st it).1 = st) ∧
    ((syncStep hp out st it).2.1 = ItemAction.noId →
        (syncStep hp out st it).1 = st) ∧
    (∀ n r, (syncStep hp out st it).2.1 = ItemAction.update n r →
        (syncStep hp out st it).1
          = update_item_state st (itemId it) (get_item_hash it) n) ∧
    (∀ m, m ≠ 0 → (syncStep hp out st it).2.1 = ItemAction.create (some m) →
        (syncStep hp out st it).1
          = update_item_state st (itemId it) (get_item_hash it) m) := by
  by_cases hid : itemId it = ""
  · rw [syncStep_noId hp out st it hid]
    simp
  · by_cases hch : dictGet st.processed_items (itemId it) = some (get_item_hash it)
    · rw [syncStep_skip_eval hp out st it hid hch]
      simp
    · cases hgi : truthyGet st.github_issues (itemId it) with
      | some n =>
          rw [syncStep_update_eval hp out st it n hid hch hgi]
          simp
      | none =>
          cases hcr : out.createResult with
          | none =>
              rw [syncStep_createFail_eval hp out st it hid hch hgi hcr]
              simp
          | some m =>
              by_cases hm : m = 0
              · subst hm
                rw [syncStep_createZero_eval hp out st it hid hch hgi hcr]
                simp
                intro m2 hm2 he
                exact absurd he.symm hm2
              · rw [syncStep_create_eval hp out st it m hid hch hgi hcr hm]
                simp [hm]
                intro m1 hm1 he
                rw [he]

set_option maxRecDepth 400000 in
/-- C1 witness: the amended statement applied to the counterexample inputs —
the update path rewrites both maps under the identity. -/
theorem claim1_witness :
    (syncStep false updateFailOutcome ⟨none, [("u", "old")], [("u", 5)]⟩
        ⟨"T", "u", "", "D"⟩).1
      = update_item_state ⟨none, [("u", "old")], [("u", 5)]⟩ "u"
          (get_item_hash ⟨"T", "u", "", "D"⟩) 5 :=
  (claim1_fingerprint_writes false updateFailOutcome
      ⟨none, [("u", "old")], [("u", 5)]⟩ ⟨"T", "u", "", "D"⟩).2.2.2.2.1
    5 UpdateOutcome.failed (by decide)

/-- C2: for a feed item carrying an identity, against a well-formed state
(fingerprint map and issue map share their key set, stored issue numbers are
truthy): the loop performs a CREATE exactly when the identity is absent from
the records, an UPDATE (never a CREATE) exactly when the identity is present
with a different fingerprint, and a SKIP (no remote call) exactly when the
identity is present with a matching fingerprint. -/
theorem claim2_decision_table (hp : Bool) (out : GWOutcome) (st : SyncState)
    (it : Item)
    (hkeys : ∀ k, (dictGet st.processed_items k).isSome
            = (dictGet st.github_issues k).isSome)
    (hnz : ∀ k n, dictGet st.github_issues k = some n → n ≠ 0)
    (hid : itemId it ≠ "") :
    ((∃ res, (syncStep hp out st it).2.1 = ItemAction.create res) ↔
        dictGet st.processed_items (itemId it) = none) ∧
    ((∃ n r, (syncStep hp out st it).2.1 = ItemAction.update n r) ↔
        ∃ h9, dictGet st.processed_items (itemId it) = some h9 ∧
          h9 ≠ get_item_hash it) ∧
    ((syncStep hp out st it).2.1 = ItemAction.skip ↔
        dictGet st.processed_items (itemId it) = some (get_item_hash it)) := by
  cases hpg : dictGet st.processed_items (itemId it) with
  | none =>
      have hgi : dictGet st.github_issues (itemId it) = none := by
        have hh := hkeys (itemId it)
        rw [hpg] at hh
        cases hgg : dictGet st.github_issues (itemId it) with
        | none => rfl
        | some v => rw [hgg] at hh; simp at hh
      have htg : truthyGet st.github_issues (itemId it) = none := by
        unfold truthyGet
        rw [hgi]
      have hch : dictGet st.processed_items (itemId it)
          ≠ some (get_item_hash it) := by
        rw [hpg]
        simp
      cases hcr : out.createResult with
      | none =>
          rw [syncStep_createFail_eval hp out st it hid hch htg hcr]
          refine ⟨?_, ?_, ?_⟩ <;> simp [hpg]
      | some m =>
          by_cases hm : m = 0
          · subst hm
            rw [syncStep_createZero_eval hp out st it hid hch htg hcr]
            refine ⟨?_, ?_, ?_⟩ <;> simp [hpg]
          · rw [syncStep_create_eval hp out st it m hid hch htg hcr hm]
            refine ⟨?_, ?_, ?_⟩ <;> simp [hpg]
  | some h9 =>
      have hgex : ∃ n, dictGet st.github_issues (itemId it) = some n ∧ n ≠ 0 := by
        have hh := hkeys (itemId it)
        rw [hpg] at hh
        cases hgg : dictGet st.github_issues (itemId it) with
        | none => rw [hgg] at hh; simp at hh
        | some v => exact ⟨v, rfl, hnz (itemId it) v hgg⟩
      obtain ⟨n, hgg, hn0⟩ := hgex
      have htg : truthyGet st.github_issues (itemId it) = some n := by
        unfold truthyGet
        rw [hgg]
        simp [hn0]
      by_cases hhash : h9 = get_item_hash it
      · subst hhash
        rw [syncStep_skip_eval hp out st it hid hpg]
        refine ⟨?_, ?_, ?_⟩ <;> simp [hpg]
      · have hch : dictGet st.processed_items (itemId it)
            ≠ some (get_item_hash it) := by
          rw [hpg]
          simp [hhash]
        rw [syncStep_update_eval hp out st it n hid hch htg]
        refine ⟨?_, ?_, ?_⟩ <;> simp [hpg, hhash]

set_option maxRecDepth 400000 in
/-- C2 witness: on the empty state (well-formed) a fresh item is not
skipped. -/
theorem claim2_witness :
    ¬ (syncStep false okOutcome emptyState ⟨"t", "u", "", "d"⟩).2.1
        = ItemAction.skip := by
  intro h
  have h2 := (claim2_decision_table false okOutcome emptyState
      ⟨"t", "u", "", "d"⟩ (fun k => rfl)
      (fun k n hkn => by simp [emptyState, dictGet] at hkn)
      (by decide)).2.2
  have h3 := h2.mp h
  simp [emptyState, dictGet] at h3

/-- C8: frame effects of the loop body (mantis_rss_sync.py variant, whose
create path attaches the issue to the project board and sets its status): on
SKIP no gateway write is issued and the state is unmutated; on UPDATE the
only write that may be issued is the issue edit — the board-attach and
status-set mutations are never issued on the update path, and the stored
issue-number map (trackerId) is left unchanged; board-attach and status-set
are issued only on the CREATE path. -/
theorem claim8_frame_effects (hp : Bool) (out : GWOutcome) (st : SyncState)
    (it : Item) :
    ((syncStep hp out st it).2.1 = ItemAction.skip →
        (syncStep hp out st it).1 = st ∧ (syncStep hp out st it).2.2 = []) ∧
    ((syncStep hp out st it).2.1 = ItemAction.noId →
        (syncStep hp out st it).1 = st ∧ (syncStep hp out st it).2.2 = []) ∧
    (∀ n r, (syncStep hp out st it).2.1 = ItemAction.update n r →
        (∀ c ∈ (syncStep hp out st it).2.2, c = GCall.editIssue n) ∧
        (syncStep hp out st it).1.github_issues = st.github_issues) ∧
    (∀ m, (GCall.addToProject m ∈ (syncStep hp out st it).2.2 ∨
            GCall.setStatus m ∈ (syncStep hp out st it).2.2) →
        ∃ res, (syncStep hp out st it).2.1 = ItemAction.create res) := by
  by_cases hid : itemId it = ""
  · rw [syncStep_noId hp out st it hid]
    simp
  · by_cases hch : dictGet st.processed_items (itemId it) = some (get_item_hash it)
    · rw [syncStep_skip_eval hp out st it hid hch]
      simp
    · cases hgi : truthyGet st.github_issues (itemId it) with
      | some n =>
          rw [syncStep_update_eval hp out st it n hid hch hgi]
          refine ⟨by simp, by simp, ?_, ?_⟩
          · intro n0 r0 he
            have hn0 : n0 = n := by
              simp only [] at he
              cases he
              rfl
            constructor
            · intro c hc
              rw [hn0]
              cases hr : out.updateResult <;>
                rw [hr] at hc <;> simp [updateCalls] at hc <;> simp [hc]
            · dsimp only
              unfold update_item_state
              dsimp only
              exact dictSet_of_get_eq _ _ _ (truthyGet_some hgi).1
          · intro m hm
            exfalso
            cases hr : out.updateResult <;>
              rw [hr] at hm <;> simp [updateCalls] at hm
      | none =>
          cases hcr : out.createResult with
          | none =>
              rw [syncStep_createFail_eval hp out st it hid hch hgi hcr]
              refine ⟨by simp, by simp, by simp, ?_⟩

              exact fun m hm => ⟨none, rfl⟩
          | some m =>
              by_cases hm : m = 0
              · subst hm
                rw [syncStep_createZero_eval hp out st it hid hch hgi hcr]
                refine ⟨by simp, by simp, by simp, ?_⟩
                exact fun m2 hm2 => ⟨some 0, rfl⟩
              · rw [syncStep_create_eval hp out st it m hid hch hgi hcr hm]
                refine ⟨by simp, by simp, by simp, ?_⟩
                exact fun m2 hm2 => ⟨some m, rfl⟩

set_option maxRecDepth 400000 in
/-- C8 witness: on a concrete changed item whose identity is tracked with
issue number 5, the update path leaves the stored issue-number map
unchanged. -/
theorem claim8_witness :
    (syncStep false okOutcome ⟨none, [("u", "old")], [("u", 5)]⟩
        ⟨"T", "u", "", "D"⟩).1.github_issues = [("u", 5)] :=
  ((claim8_frame_effects false okOutcome ⟨none, [("u", "old")], [("u", 5)]⟩
      ⟨"T", "u", "", "D"⟩).2.2.1 5 UpdateOutcome.edited (by decide)).2

set_option maxRecDepth 400000 in
/-- C3 counterexample: a feed snapshot holding two items with the same
identity `"u"` but different titles, run twice from the empty state with
every gateway call succeeding: the second run still performs an update
(the stored fingerprint always reflects the last written duplicate, so each
duplicate looks changed again — both items are re-updated), refuting
idempotence over arbitrary snapshots. -/
theorem claim3_counterexample :
    countUpdated (syncRun false (fun _ => okOutcome)
        (FetchResult.ok [⟨"a", "u", "", ""⟩, ⟨"b", "u", "", ""⟩])
        (syncRun false (fun _ => okOutcome)
          (FetchResult.ok [⟨"a", "u", "", ""⟩, ⟨"b", "u", "", ""⟩])
          emptyState "t1").1 "t2").2.1 = 2 ∧
    countCreated (syncRun false (fun _ => okOutcome)
        (FetchResult.ok [⟨"a", "u", "", ""⟩, ⟨"b", "u", "", ""⟩])
        (syncRun false (fun _ => okOutcome)
          (FetchResult.ok [⟨"a", "u", "", ""⟩, ⟨"b", "u", "", ""⟩])
          emptyState "t1").1 "t2").2.1 = 0 := by
  decide

/-- C3 (amended): for every feed snapshot in which items sharing an identity
share a fingerprint, and every starting state, running the sync twice on the
unchanged feed with every gateway call succeeding yields zero creates and
zero updates on the second run (every item is skipped or carries no
identity), and the second run leaves both per-item record maps unchanged. -/
theorem claim3_idempotent (hp : Bool) (o1 o2 : Nat → GWOutcome)
    (items : List Item) (st0 : SyncState) (now1 now2 : String)
    (h1 : ∀ i, gwOk (o1 i)) (h2 : ∀ i, gwOk (o2 i))
    (hcons : hashConsistent items) :
    countCreated (syncRun hp o2 (FetchResult.ok items)
        (syncRun hp o1 (FetchResult.ok items) st0 now1).1 now2).2.1 = 0 ∧
    countUpdated (syncRun hp o2 (FetchResult.ok items)
        (syncRun hp o1 (FetchResult.ok items) st0 now1).1 now2).2.1 = 0 ∧
    (∀ a ∈ (syncRun hp o2 (FetchResult.ok items)
        (syncRun hp o1 (FetchResult.ok items) st0 now1).1 now2).2.1,
      a = ItemAction.skip ∨ a = ItemAction.noId) ∧
    (syncRun hp o2 (FetchResult.ok items)
        (syncRun hp o1 (FetchResult.ok items) st0 now1).1 now2).1.processed_items
      = (syncRun hp o1 (FetchResult.ok items) st0 now1).1.processed_items ∧
    (syncRun hp o2 (FetchResult.ok items)
        (syncRun hp o1 (FetchResult.ok items) st0 now1).1 now2).1.github_issues
      = (syncRun hp o1 (FetchResult.ok items) st0 now1).1.github_issues := by
  cases items with
  | nil =>
      refine ⟨rfl, rfl, ?_, rfl, rfl⟩
      intro a ha
      exact absurd ha (List.not_mem_nil a)
  | cons x rest =>
      have hr1 : syncRun hp o1 (FetchResult.ok (x :: rest)) st0 now1
          = (⟨some now1,
              (syncLoop hp o1 (x :: rest) st0).1.processed_items,
              (syncLoop hp o1 (x :: rest) st0).1.github_issues⟩,
             (syncLoop hp o1 (x :: rest) st0).2, true) := by
        simp [syncRun, fetch_rss_feed]
      have hpost : ∀ y ∈ x :: rest, itemId y ≠ "" →
          dictGet (syncRun hp o1 (FetchResult.ok (x :: rest)) st0
              now1).1.processed_items (itemId y) = some (get_item_hash y) := by
        intro y hy hyid
        rw [hr1]
        exact syncLoop_postHash hp o1 (x :: rest) st0 h1 hcons y hy hyid
      have hall := syncLoop_allSkip hp o2 (x :: rest)
        (syncRun hp o1 (FetchResult.ok (x :: rest)) st0 now1).1 hpost
      have hr2 : syncRun hp o2 (FetchResult.ok (x :: rest))
            (syncRun hp o1 (FetchResult.ok (x :: rest)) st0 now1).1 now2
          = (⟨some now2,
              (syncLoop hp o2 (x :: rest)
                (syncRun hp o1 (FetchResult.ok (x :: rest)) st0 now1).1).1.processed_items,
              (syncLoop hp o2 (x :: rest)
                (syncRun hp o1 (FetchResult.ok (x :: rest)) st0 now1).1).1.github_issues⟩,
             (syncLoop hp o2 (x :: rest)
               (syncRun hp o1 (FetchResult.ok (x :: rest)) st0 now1).1).2, true) := by
        simp [syncRun, fetch_rss_feed]
      have hcounts := counts_of_skips _ hall.2
      refine ⟨?_, ?_, ?_, ?_, ?_⟩
      · rw [hr2]
        exact hcounts.1
      · rw [hr2]
        exact hcounts.2
      · intro a ha
        rw [hr2] at ha
        exact hall.2 a ha
      · rw [hr2]
        dsimp only
        rw [hall.1]
      · rw [hr2]
        dsimp only
        rw [hall.1]

set_option maxRecDepth 400000 in
/-- C3 witness: the amended statement on a one-item feed run twice from the
empty state with an all-success gateway: the second run changes no
fingerprint record. -/
theorem claim3_witness :
    (syncRun false (fun _ => okOutcome) (FetchResult.ok [⟨"a", "u", "", ""⟩])
        (syncRun false (fun _ => okOutcome) (FetchResult.ok [⟨"a", "u", "", ""⟩])
          emptyState "t1").1 "t2").1.processed_items
      = (syncRun false (fun _ => okOutcome) (FetchResult.ok [⟨"a", "u", "", ""⟩])
          emptyState "t1").1.processed_items :=
  (claim3_idempotent false (fun _ => okOutcome) (fun _ => okOutcome)
      [⟨"a", "u", "", ""⟩] emptyState "t1" "t2"
      (fun _ => ⟨⟨7, rfl, by decide⟩, fun he => UpdateOutcome.noConfusion he⟩)
      (fun _ => ⟨⟨7, rfl, by decide⟩, fun he => UpdateOutcome.noConfusion he⟩)
      (fun x hx y hy _ => by
        rw [List.mem_singleton] at hx hy
        subst hx
        subst hy
        rfl)).2.2.2.1

/-- C4: partial-failure isolation, for failures during CREATE and during
UPDATE.  First part: a create failure for a fresh-identity item is absorbed
at that item's boundary — the loop's final state equals that of the run on
the feed with the item removed (oracle reindexed), and the remaining items
produce exactly the same actions.  Second part: when the failing item's
remote update raises (swallowed inside `update_issue` — which, per C1,
still overwrites that item's own fingerprint), every identity other than
the failing item's still ends with exactly the records of the run without
that item.  Third part: whatever the outcomes, the trace has one entry per
feed item — no per-item error propagates out of the loop. -/
theorem claim4_partial_failure (hp : Bool) (o : Nat → GWOutcome)
    (st : SyncState) (xs ys : List Item) (b : Item) :
    ((o xs.length).createResult = none → itemId b ≠ "" →
      dictGet st.processed_items (itemId b) = none →
      dictGet st.github_issues (itemId b) = none →
      (∀ x ∈ xs, itemId x ≠ itemId b) →
      (syncLoop hp o (xs ++ b :: ys) st).1
          = (syncLoop hp (deleteO o xs.length) (xs ++ ys) st).1 ∧
      (syncLoop hp o (xs ++ b :: ys) st).2
          = (syncLoop hp o xs st).2 ++ ItemAction.create none ::
              (syncLoop hp (fun i => o (i + (xs.length + 1))) ys
                (syncLoop hp o xs st).1).2 ∧
      (syncLoop hp (deleteO o xs.length) (xs ++ ys) st).2
          = (syncLoop hp o xs st).2 ++
              (syncLoop hp (fun i => o (i + (xs.length + 1))) ys
                (syncLoop hp o xs st).1).2) ∧
    ((o xs.length).updateResult = UpdateOutcome.failed →
      ∀ k, k ≠ itemId b →
      dictGet (syncLoop hp o (xs ++ b :: ys) st).1.processed_items k
        = dictGet (syncLoop hp (deleteO o xs.length)
            (xs ++ ys) st).1.processed_items k ∧
      dictGet (syncLoop hp o (xs ++ b :: ys) st).1.github_issues k
        = dictGet (syncLoop hp (deleteO o xs.length)
            (xs ++ ys) st).1.github_issues k) ∧
    (syncLoop hp o (xs ++ b :: ys) st).2.length
        = xs.length + 1 + ys.length := by
  refine ⟨?_, ?_, ?_⟩
  · intro hfail hid hb1 hb2 hxs
    have hfr := syncLoop_frame hp o xs st (itemId b) hxs
    have hL1 : dictGet (syncLoop hp o xs st).1.processed_items (itemId b) = none :=
      hfr.1.trans hb1
    have hL2 : dictGet (syncLoop hp o xs st).1.github_issues (itemId b) = none :=
      hfr.2.trans hb2
    have hch : dictGet (syncLoop hp o xs st).1.processed_items (itemId b)
        ≠ some (get_item_hash b) := by
      rw [hL1]
      simp
    have htg : truthyGet (syncLoop hp o xs st).1.github_issues (itemId b) = none := by
      unfold truthyGet
      rw [hL2]
    have hstep := syncStep_createFail_eval hp (o xs.length)
      (syncLoop hp o xs st).1 b hid hch htg hfail
    have hb : (syncStep hp (o xs.length) (syncLoop hp o xs st).1 b).1
        = (syncLoop hp o xs st).1 := by rw [hstep]
    have hins := syncLoop_insert hp o st xs ys b hb
    refine ⟨hins.1, ?_, hins.2.2⟩
    have h2 := hins.2.1
    rw [hstep] at h2
    exact h2
  · intro _ k hk
    exact syncLoop_insert_isolated hp o st xs ys b k hk
  · rw [syncLoop_trace_length]
    simp [List.length_append]
    omega

set_option maxRecDepth 400000 in
/-- C4 witness: first, with the first item's create failing, the final
state equals that of the run without it (only the second item ends up
recorded); second, with the first item's remote update raising, the records
under the second item's identity `"v"` equal those of the run without the
failing item. -/
theorem claim4_witness :
    (syncLoop false (fun i => if i = 0 then createFailOutcome else okOutcome)
        [⟨"t", "u", "", ""⟩, ⟨"s", "v", "", ""⟩] emptyState).1
      = (syncLoop false
          (deleteO (fun i => if i = 0 then createFailOutcome else okOutcome) 0)
          [⟨"s", "v", "", ""⟩] emptyState).1 ∧
    dictGet (syncLoop false
        (fun i => if i = 0 then updateFailOutcome else okOutcome)
        [⟨"T", "u", "", "D"⟩, ⟨"s", "v", "", ""⟩]
        ⟨none, [("u", "old")], [("u", 5)]⟩).1.processed_items "v"
      = dictGet (syncLoop false
          (deleteO (fun i => if i = 0 then updateFailOutcome else okOutcome) 0)
          [⟨"s", "v", "", ""⟩]
          ⟨none, [("u", "old")], [("u", 5)]⟩).1.processed_items "v" :=
  ⟨((claim4_partial_failure false
        (fun i => if i = 0 then createFailOutcome else okOutcome)
        emptyState [] [⟨"s", "v", "", ""⟩] ⟨"t", "u", "", ""⟩).1
      (by decide) (by decide) rfl rfl
      (fun x hx => absurd hx (List.not_mem_nil x))).1,
   ((claim4_partial_failure false
        (fun i => if i = 0 then updateFailOutcome else okOutcome)
        ⟨none, [("u", "old")], [("u", 5)]⟩ [] [⟨"s", "v", "", ""⟩]
        ⟨"T", "u", "", "D"⟩).2.1
      (by decide) "v" (by decide)).1⟩

/-- C5 counterexample: with all required environment variables present and
the feed fetch failing, the process exits 0 (not non-zero as claimed):
`fetch_rss_feed` swallows the failure and returns an empty list, which
`sync` treats as an empty feed. -/
theorem claim5_counterexample :
    (mainRun ⟨some "u", some "t", some "r"⟩ false (fun _ => okOutcome)
        FetchResult.err ⟨none, [("k", "h")], [("k", 3)]⟩ "now").1 = 0 ∧
    (mainRun ⟨some "u", some "t", some "r"⟩ false (fun _ => okOutcome)
        FetchResult.err ⟨none, [("k", "h")], [("k", 3)]⟩ "now").2.1
      = ⟨none, [("k", "h")], [("k", 3)]⟩ :=
  ⟨rfl, rfl⟩

/-- C5 (amended): a feed-fetch failure is swallowed and behaves exactly like
an empty feed: exit code 0, the persisted records byte-for-byte unchanged
(the state is not even saved), and no per-item action; a successful fetch of
zero items gives the same; any run with the required configuration present
exits 0 (per-item gateway failures included); and missing required
configuration exits 1 before any work, state untouched. -/
theorem claim5_exit_contract (env : Env) (hp : Bool) (o : Nat → GWOutcome)
    (fetch : FetchResult) (st : SyncState) (now : String) :
    (envOk env = true →
        mainRun env hp o FetchResult.err st now = (0, st, [])) ∧
    (envOk env = true →
        mainRun env hp o (FetchResult.ok []) st now = (0, st, [])) ∧
    (envOk env = true → (mainRun env hp o fetch st now).1 = 0) ∧
    (envOk env = false → mainRun env hp o fetch st now = (1, st, [])) := by
  refine ⟨?_, ?_, ?_, ?_⟩ <;> intro h <;> unfold envOk at h
  · simp [mainRun, syncRun, fetch_rss_feed, h]
  · simp [mainRun, syncRun, fetch_rss_feed, h]
  · simp [mainRun, h]
  · simp [mainRun, h]

/-- C5 witness: the amended statement on a concrete fetch-failure run. -/
theorem claim5_witness :
    mainRun ⟨some "u", some "t", some "r"⟩ false (fun _ => okOutcome)
        FetchResult.err emptyState "n"
      = (0, emptyState, []) :=
  (claim5_exit_contract ⟨some "u", some "t", some "r"⟩ false
      (fun _ => okOutcome) FetchResult.err emptyState "n").1 (by decide)

/-- C9: a feed item with neither a link nor a feed id yields no identity:
the loop body returns the state unchanged, issues no gateway call and
produces the `noId` action; inserting such an item anywhere in a feed leaves
the final state exactly as without it while the loop continues through the
remaining items. -/
theorem claim9_no_identity (hp : Bool) (o : Nat → GWOutcome) (st : SyncState)
    (xs ys : List Item) (b : Item) (hlink : b.link = "") (hid0 : b.id = "") :
    (∀ out st2, syncStep hp out st2 b = (st2, ItemAction.noId, [])) ∧
    (syncLoop hp o (xs ++ b :: ys) st).1
        = (syncLoop hp (deleteO o xs.length) (xs ++ ys) st).1 ∧
    (syncLoop hp o (xs ++ b :: ys) st).2
        = (syncLoop hp o xs st).2 ++ ItemAction.noId ::
            (syncLoop hp (fun i => o (i + (xs.length + 1))) ys
              (syncLoop hp o xs st).1).2 ∧
    (syncLoop hp (deleteO o xs.length) (xs ++ ys) st).2
        = (syncLoop hp o xs st).2 ++
            (syncLoop hp (fun i => o (i + (xs.length + 1))) ys
              (syncLoop hp o xs st).1).2 := by
  have hidb : itemId b = "" := by
    unfold itemId
    rw [hlink, hid0]
    simp
  have hstep := syncStep_noId hp (o xs.length) (syncLoop hp o xs st).1 b hidb
  have hb : (syncStep hp (o xs.length) (syncLoop hp o xs st).1 b).1
      = (syncLoop hp o xs st).1 := by rw [hstep]
  have hins := syncLoop_insert hp o st xs ys b hb
  refine ⟨fun out st2 => syncStep_noId hp out st2 b hidb, hins.1, ?_, hins.2.2⟩
  have h2 := hins.2.1
  rw [hstep] at h2
  exact h2

/-- C9 witness: a single item with no link and no id leaves the empty state
untouched. -/
theorem claim9_witness :
    (syncLoop false (fun _ => okOutcome) [⟨"t", "", "", "d"⟩] emptyState).1
      = emptyState :=
  (claim9_no_identity false (fun _ => okOutcome) emptyState [] []
      ⟨"t", "", "", "d"⟩ rfl rfl).2.1

end RssSync
